import Mathlib

/-!
# Verification of the bcoin PoS staking core

A shallow embedding, in Lean 4, of the staking core of this repository:

* `lib/primitives/abstractblock.js` — block-header serialization and parsing;
* `lib/blockchain/pos.js` (the BlackCoin kernel module) — the proof-of-stake
  kernel predicate `checkStakeKernelHash`;
* `lib/mining/stdstaker.js` — the CPU staker: job lifecycle (`STDJob`),
  extra-nonce accounting, the PoW nonce search `findNonce`, and the PoS
  stake search `doStake`.

Bytes are modelled as `List Nat` (each entry a value `0 ≤ b < 256`),
machine integers as `Nat`/`Int` with explicit `% 2 ^ 32` where the source
truncates, and fallible JavaScript evaluation (thrown `TypeError`s and
`assert` failures) as `Except JsError` / `Option`.

External primitives that the sources call but whose code is not part of
this repository (double-SHA-256, the compact-difficulty decoding, the
worker-pool `mine` primitive, the block-template operations) are modelled
from the specification, with a doc comment naming what is missing.
-/

/-! ## Byte-level helpers -/

/-- Little-endian serialization of a 32-bit unsigned integer, as performed by
`StaticWriter.writeU32`: four bytes, least significant first. -/
def u32LE (n : Nat) : List Nat :=
  [n % 256, n / 256 % 256, n / 65536 % 256, n / 16777216 % 256]

/-- Interpret a byte list as a little-endian integer, as `new BN(hex, 16, 'le')`
does with the hex rendering of a buffer: byte `i` contributes `b * 256 ^ i`. -/
def leNat (bs : List Nat) : Nat :=
  bs.foldr (fun b acc => b + 256 * acc) 0

/-- Big-endian serialization of a 64-bit length field (SHA-256 padding). -/
def u64BE (n : Nat) : List Nat :=
  [n / 2 ^ 56 % 256, n / 2 ^ 48 % 256, n / 2 ^ 40 % 256, n / 2 ^ 32 % 256,
   n / 2 ^ 24 % 256, n / 2 ^ 16 % 256, n / 2 ^ 8 % 256, n % 256]

/-- Big-endian serialization of a 32-bit word (SHA-256 output formatting). -/
def u32BEbytes (w : Nat) : List Nat :=
  [w / 16777216 % 256, w / 65536 % 256, w / 256 % 256, w % 256]

/-! ## SHA-256

Modelled from the spec: the sources call `digest.hash256` (double SHA-256)
from the `crypto/digest` module, which is not under `src/`; the spec states
that `hash256` denotes double-SHA-256, so SHA-256 is implemented here from
the FIPS 180-4 description. Validation vectors are proved in the theorem
section (`sha256_abc`, `hash256_empty`). -/

/-- Right rotation of a 32-bit word. -/
def rot32 (n x : Nat) : Nat :=
  ((x >>> n) ||| (x <<< (32 - n))) % 4294967296

/-- SHA-256 small sigma 0. -/
def smallSigma0 (x : Nat) : Nat := (rot32 7 x) ^^^ (rot32 18 x) ^^^ (x >>> 3)

/-- SHA-256 small sigma 1. -/
def smallSigma1 (x : Nat) : Nat := (rot32 17 x) ^^^ (rot32 19 x) ^^^ (x >>> 10)

/-- SHA-256 big sigma 0. -/
def bigSigma0 (x : Nat) : Nat := (rot32 2 x) ^^^ (rot32 13 x) ^^^ (rot32 22 x)

/-- SHA-256 big sigma 1. -/
def bigSigma1 (x : Nat) : Nat := (rot32 6 x) ^^^ (rot32 11 x) ^^^ (rot32 25 x)

/-- The 64 SHA-256 round constants. -/
def sha256K : List Nat :=
  [1116352408, 1899447441, 3049323471, 3921009573, 961987163,
   1508970993, 2453635748, 2870763221, 3624381080, 310598401,
   607225278, 1426881987, 1925078388, 2162078206, 2614888103,
   3248222580, 3835390401, 4022224774, 264347078, 604807628,
   770255983, 1249150122, 1555081692, 1996064986, 2554220882,
   2821834349, 2952996808, 3210313671, 3336571891, 3584528711,
   113926993, 338241895, 666307205, 773529912, 1294757372,
   1396182291, 1695183700, 1986661051, 2177026350, 2456956037,
   2730485921, 2820302411, 3259730800, 3345764771, 3516065817,
   3600352804, 4094571909, 275423344, 430227734, 506948616,
   659060556, 883997877, 958139571, 1322822218, 1537002063,
   1747873779, 1955562222, 2024104815, 2227730452, 2361852424,
   2428436474, 2756734187, 3204031479, 3329325298]

/-- The eight 32-bit words of a SHA-256 working state. -/
structure SHAState where
  a : Nat
  b : Nat
  c : Nat
  d : Nat
  e : Nat
  f : Nat
  g : Nat
  h : Nat

/-- The SHA-256 initial hash value. -/
def sha256Init : SHAState :=
  ⟨1779033703, 3144134277, 1013904242, 2773480762,
   1359893119, 2600822924, 528734635, 1541459225⟩

/-- One SHA-256 compression round; `kw` is the pair of round constant and
message-schedule word. -/
def sha256Round (st : SHAState) (kw : Nat × Nat) : SHAState :=
  let ch := (st.e &&& st.f) ^^^ ((st.e ^^^ 4294967295) &&& st.g)
  let t1 := (st.h + bigSigma1 st.e + ch + kw.1 + kw.2) % 4294967296
  let maj := (st.a &&& st.b) ^^^ (st.a &&& st.c) ^^^ (st.b &&& st.c)
  let t2 := (bigSigma0 st.a + maj) % 4294967296
  ⟨(t1 + t2) % 4294967296, st.a, st.b, st.c,
   (st.d + t1) % 4294967296, st.e, st.f, st.g⟩

/-- Group a byte list into big-endian 32-bit words. -/
def toWordsBE : List Nat → List Nat
  | b0 :: b1 :: b2 :: b3 :: rest =>
      (b0 * 16777216 + b1 * 65536 + b2 * 256 + b3) :: toWordsBE rest
  | _ => []

/-- Extend a 16-word message block by `n` further schedule words. -/
def extendW : Nat → List Nat → List Nat
  | 0, ws => ws
  | n + 1, ws =>
      let l := ws.length
      let next := (ws.getD (l - 16) 0 + smallSigma0 (ws.getD (l - 15) 0) +
                   ws.getD (l - 7) 0 + smallSigma1 (ws.getD (l - 2) 0)) % 4294967296
      extendW n (ws ++ [next])

/-- Split a padded message into `n` blocks of 64 bytes. -/
def chunks64 : Nat → List Nat → List (List Nat)
  | 0, _ => []
  | n + 1, l => l.take 64 :: chunks64 n (l.drop 64)

/-- SHA-256 padding: append `0x80`, zeros to 56 mod 64, and the bit length
as a big-endian 64-bit integer. -/
def shaPad (msg : List Nat) : List Nat :=
  let len := msg.length
  let zeros := (119 - len % 64) % 64
  msg ++ (128 :: List.replicate zeros 0) ++ u64BE (8 * len)

/-- Compress one 64-byte block into the running state. -/
def sha256Block (st : SHAState) (block : List Nat) : SHAState :=
  let ws := extendW 48 (toWordsBE block)
  let t := (sha256K.zip ws).foldl sha256Round st
  ⟨(st.a + t.a) % 4294967296, (st.b + t.b) % 4294967296,
   (st.c + t.c) % 4294967296, (st.d + t.d) % 4294967296,
   (st.e + t.e) % 4294967296, (st.f + t.f) % 4294967296,
   (st.g + t.g) % 4294967296, (st.h + t.h) % 4294967296⟩

/-- SHA-256 of a byte list, producing the 32-byte digest. -/
def sha256 (msg : List Nat) : List Nat :=
  let p := shaPad msg
  let st := (chunks64 (p.length / 64) p).foldl sha256Block sha256Init
  u32BEbytes st.a ++ u32BEbytes st.b ++ u32BEbytes st.c ++ u32BEbytes st.d ++
  u32BEbytes st.e ++ u32BEbytes st.f ++ u32BEbytes st.g ++ u32BEbytes st.h

/-- Modelled from the spec: `digest.hash256` (the `crypto/digest` module is
outside `src/`) denotes double-SHA-256. -/
def hash256 (msg : List Nat) : List Nat := sha256 (sha256 msg)

/-! ## Compact difficulty targets -/

/-- Modelled from the spec: `consensus.fromCompact` (the `protocol/consensus`
module is outside `src/`) — the consensus compact-difficulty decoding. The
low 23 bits are the mantissa, bit 23 the sign, and the top byte the base-256
exponent relative to a 3-byte mantissa. -/
def fromCompact (compact : Nat) : Int :=
  if compact = 0 then 0
  else
    let exponent := compact / 2 ^ 24
    let negative := compact / 2 ^ 23 % 2
    let mantissa := compact % 2 ^ 23
    let num : Int :=
      if exponent ≤ 3 then ((mantissa / 2 ^ (8 * (3 - exponent)) : Nat) : Int)
      else ((mantissa * 2 ^ (8 * (exponent - 3)) : Nat) : Int)
    if negative = 1 then -num else num

/-! ## The PoS kernel predicate (`pos.js`, `Pos.prototype.checkStakeKernelHash`) -/

/-- The chain-tip snapshot fields the kernel reads: `prev.height` and
`prev.stakeModifier` (a 32-byte value). -/
structure TipSnapshot where
  height : Nat
  stakeModifier : List Nat
deriving DecidableEq

/-- One transaction output, as far as the kernel reads it: its value. -/
structure Output where
  value : Nat
deriving DecidableEq

/-- The previous-transaction coins entry (`txPrev`, the `coin` argument of
`checkStakeKernelHash`): confirming height (bcoin uses `-1` for unconfirmed
coins, so the height is an integer), block timestamp `nTime`, and outputs. -/
structure Coin where
  height : Int
  nTime : Nat
  outputs : List Output
deriving DecidableEq

/-- The `previousout` argument: transaction hash and output index. -/
structure Outpoint where
  hash : List Nat
  index : Nat
deriving DecidableEq

/-- The 76-byte kernel message, exactly as `checkStakeKernelHash` writes it:
`stakeModifier ‖ u32LE(coin.nTime) ‖ previousout.hash ‖
u32LE(previousout.index) ‖ u32LE(timeTx)`. -/
def kernelData (prev : TipSnapshot) (c : Coin) (po : Outpoint) (timeTx : Nat) : List Nat :=
  prev.stakeModifier ++ (u32LE c.nTime ++ (po.hash ++ (u32LE po.index ++ u32LE timeTx)))

/-- `Pos.prototype.checkStakeKernelHash` (pos.js lines 374-401).
`minConf` is `consensus.STAKE_MIN_CONFIRMATIONS`, a consensus-table constant
whose module is outside `src/`, kept as a parameter. A `none` result models
the JavaScript `TypeError` thrown when `coin.getOutput(previousout.index)`
returns no output and `.value` is read from `undefined`. -/
def checkStakeKernelHash (minConf : Nat) (prev : TipSnapshot) (blkbits : Nat)
    (coin : Option Coin) (previousout : Outpoint) (timeTx : Nat) : Option Bool :=
  match coin with
  | none => some false
  | some c =>
    let blkheight : Int := (prev.height : Int) + 1
    if blkheight - c.height < (minConf : Int) then some false
    else
      match c.outputs[previousout.index]? with
      | none => none
      | some out =>
        let nValueIn := out.value
        if nValueIn = 0 then some false
        else
          let bnTarget := fromCompact blkbits
          let hashProofOfStake := leNat (hash256 (kernelData prev c previousout timeTx))
          let weight := hashProofOfStake / nValueIn
          some (decide ((weight : Int) ≤ bnTarget))

/-! ## Block-header serialization (`abstractblock.js`) -/

/-- The header fields written by `AbstractBlock.prototype.writeHead`. -/
structure Header where
  version : Nat
  prevBlock : List Nat
  merkleRoot : List Nat
  ts : Nat
  bits : Nat
  nonce : Nat
deriving DecidableEq

/-- `AbstractBlock.prototype.writeHead`: `u32 version ‖ prevBlock ‖
merkleRoot ‖ u32 ts ‖ u32 bits ‖ u32 nonce`, all little-endian, hashes in
wire order (80 bytes for 32-byte hashes). -/
def serializeHead (hd : Header) : List Nat :=
  u32LE hd.version ++ (hd.prevBlock ++ (hd.merkleRoot ++
    (u32LE hd.ts ++ (u32LE hd.bits ++ u32LE hd.nonce))))

/-- `BufferReader.readU32`: consume four bytes, little-endian; `none` models
the reader throwing on a short buffer. -/
def readU32 (data : List Nat) : Option (Nat × List Nat) :=
  match data with
  | b0 :: b1 :: b2 :: b3 :: rest =>
      some (b0 + 256 * b1 + 65536 * b2 + 16777216 * b3, rest)
  | _ => none

/-- `BufferReader.readHash`: consume 32 bytes. -/
def readHash32 (data : List Nat) : Option (List Nat × List Nat) :=
  if 32 ≤ data.length then some (data.take 32, data.drop 32) else none

/-- `AbstractBlock.prototype.readHead`: parse the six header fields in wire
order. -/
def parseHead (data : List Nat) : Option Header :=
  match readU32 data with
  | none => none
  | some (version, r1) =>
    match readHash32 r1 with
    | none => none
    | some (prevBlock, r2) =>
      match readHash32 r2 with
      | none => none
      | some (merkleRoot, r3) =>
        match readU32 r3 with
        | none => none
        | some (ts, r4) =>
          match readU32 r4 with
          | none => none
          | some (bits, r5) =>
            match readU32 r5 with
            | none => none
            | some (nonce, _) => some ⟨version, prevBlock, merkleRoot, ts, bits, nonce⟩

/-! ## The CPU staker (`stdstaker.js`) -/

/-- Thrown JavaScript failures the staker code can produce: reading a
property of `undefined` (`TypeError`) and a failed `assert(cond, msg)`. -/
inductive JsError where
  | typeError : JsError
  | assertError : String → JsError
deriving DecidableEq

/-- A finished block, kept abstract: the staker only passes it through. -/
structure Block where
  raw : List Nat

/-- A spendable wallet coin as the stake search reads it: transaction hash,
output index, and value. -/
structure WalletCoin where
  hash : List Nat
  index : Nat
  value : Nat
deriving DecidableEq

/-- Modelled from the spec: the block template (`attempt`). Its own module is
outside `src/`; the spec says `getProof`/`commit` build the final
extra-nonce-bearing coinbase and produce a block, and `commitCnTxTime`
installs the coinstake and returns the block. Both are modelled as pure
block constructors carried by the template, together with the `prevBlock`
and `ts` fields the staker reads. -/
structure Attempt where
  prevBlock : List Nat
  ts : Nat
  commitProof : Nat → Nat → Nat → Nat → Block
  commitCnTx : Nat → WalletCoin → Block

/-- The mining job state (`STDJob`): template reference, one-shot flags,
start time, and the extra-nonce pair. -/
structure STDJob where
  attempt : Attempt
  destroyed : Bool
  committed : Bool
  start : Nat
  nonce1 : Nat
  nonce2 : Nat

/-- `STDJob.prototype.commit` (stdstaker.js lines 620-633): assert the job
is not yet committed, mark it committed, and return the block built from
`attempt.getProof(n1, n2, ts, nonce)`. The `destroyed` flag is not read. -/
def STDJob.commit (job : STDJob) (nonce : Nat) : Except JsError (STDJob × Block) :=
  if job.committed then .error (.assertError "Job already committed.")
  else .ok ({ job with committed := true },
            job.attempt.commitProof job.nonce1 job.nonce2 job.attempt.ts nonce)

/-- `STDJob.prototype.commitCnTxTime` (stdstaker.js lines 641-646): the PoS
commit path; same single-shot check on `committed`. -/
def STDJob.commitCnTxTime (job : STDJob) (nTime : Nat) (stakeCoin : WalletCoin) :
    Except JsError (STDJob × Block) :=
  if job.committed then .error (.assertError "Job already committed.")
  else .ok ({ job with committed := true }, job.attempt.commitCnTx nTime stakeCoin)

/-- `STDJob.prototype.updateNonce` (stdstaker.js lines 687-692): increment
`nonce2`; on overflow at `2 ^ 32`, reset it and increment `nonce1`. -/
def STDJob.updateNonce (job : STDJob) : STDJob :=
  if job.nonce2 + 1 = 4294967296 then { job with nonce2 := 0, nonce1 := job.nonce1 + 1 }
  else { job with nonce2 := job.nonce2 + 1 }

/-- `STDJob.prototype.destroy` (stdstaker.js lines 698-701): assert the job
is not yet destroyed, then set the flag. -/
def STDJob.destroy (job : STDJob) : Except JsError STDJob :=
  if job.destroyed then .error (.assertError "Job already destroyed.")
  else .ok { job with destroyed := true }

/-- `STDJob.prototype.getHashes` (stdstaker.js lines 709-712): the telemetry
hash count. The source multiplies the extra-nonce count by `0xffffffff`. -/
def STDJob.getHashes (job : STDJob) (nonce : Nat) : Nat :=
  (job.nonce1 * 4294967296 + job.nonce2) * 4294967295 + nonce

/-- A `tip` event payload, as far as the handler reads it: the new tip entry
has a `prevBlock` hash. -/
structure ChainTipEvent where
  prevBlock : List Nat

/-- The `chain.on('tip', ...)` handler installed by `STDStaker.prototype._init`
(stdstaker.js lines 68-76): if a current job exists and its template's
`prevBlock` equals the new tip entry's `prevBlock`, call `job.destroy()`.
The handler neither nulls the job reference nor checks `job.destroyed`. -/
def handleTip (job? : Option STDJob) (tip : ChainTipEvent) : Except JsError (Option STDJob) :=
  match job? with
  | none => .ok none
  | some job =>
    if job.attempt.prevBlock = tip.prevBlock then
      match job.destroy with
      | .error e => .error e
      | .ok j2 => .ok (some j2)
    else .ok (some job)

/-! ## The PoW nonce search (`STDStaker.prototype.findNonce`) -/

/-- `STDStaker.INTERVAL = 0xffffffff / 1500 | 0` (stdstaker.js line 61). -/
def INTERVAL : Nat := 0xffffffff / 1500

/-- The `while (max <= 0xffffffff)` loop of `findNonce` (stdstaker.js lines
407-428), parameterized over the `mine` primitive. The loop runs at most
1500 iterations (each adds `INTERVAL` to `max`), so any fuel of at least
1500 computes the same answer (`findNonceLoop_fuel_irrelevant`); when the
guard fails the JavaScript returns the last `mine` result, `-1`. -/
def findNonceLoop (mineFn : Nat → Nat → Int) : Nat → Nat → Nat → Int
  | 0, _, _ => -1
  | fuel + 1, mn, mx =>
    if mx ≤ 0xffffffff then
      let nonce := mineFn mn mx
      if nonce = -1 then findNonceLoop mineFn fuel (mn + INTERVAL) (mx + INTERVAL)
      else nonce
    else -1

/-- `STDStaker.prototype.findNonce`: slices start at `[0, INTERVAL)`. -/
def findNonce (mineFn : Nat → Nat → Int) : Int :=
  findNonceLoop mineFn 1501 0 INTERVAL

/-- Modelled from the spec: the `mine(data, target, min, max)` primitive
(its module is outside `src/`) searches the slice `[min, max)` and returns
the lowest nonce satisfying the target predicate `p`, or `-1` on a miss. -/
def mineSpec (p : Nat → Bool) (mn mx : Nat) : Int :=
  match (List.range' mn (mx - mn)).find? p with
  | some n => (n : Int)
  | none => -1

/-! ## The PoS stake search (`STDStaker.prototype.doStake`) -/

/-- The declaration `let prevOut, stakeCoin;` at the top of `doStake` /
`doStakeAsync` (stdstaker.js lines 315 and 362): `prevOut` is never
assigned, so it holds `undefined` for the whole search. -/
def doStakePrevOut : Option Output := none

/-- Reading `.value` from a possibly-`undefined` JavaScript binding. -/
def jsGetValue : Option Output → Except JsError Nat
  | none => .error .typeError
  | some o => .ok o.value

/-- The `for (let coin of coins)` body of the stake search (stdstaker.js
lines 373-382): fetch `txPrev` from the chain db, evaluate
`consensus.toCompact(new BN(prevOut.value, 10))` — which reads
`prevOut.value` first — and pass the result to `checkStakeKernelHash`;
break with the coin on a found kernel. `toCompactFn` stands for the
external `consensus.toCompact`. -/
def scanCoins (minConf : Nat) (toCompactFn : Nat → Nat) (getCoinsDb : List Nat → Option Coin)
    (prev : TipSnapshot) (prevOut : Option Output) (nTime : Nat) :
    List WalletCoin → Except JsError (Option WalletCoin)
  | [] => .ok none
  | coin :: rest =>
    let txPrev := getCoinsDb coin.hash
    match jsGetValue prevOut with
    | .error e => .error e
    | .ok v =>
      let target := toCompactFn v
      match checkStakeKernelHash minConf prev target txPrev ⟨coin.hash, coin.index⟩ nTime with
      | none => .error .typeError
      | some foundKernel =>
        if foundKernel then .ok (some coin)
        else scanCoins minConf toCompactFn getCoinsDb prev prevOut nTime rest

/-- Outcome of running the stake-search outer loop for a bounded number of
iterations: still looping (with the current clock index and `nTime`),
exited with a found kernel, or terminated by a thrown error. -/
inductive StakeLoopResult where
  | running : Nat → Nat → StakeLoopResult
  | found : Nat → WalletCoin → StakeLoopResult
  | jsError : JsError → StakeLoopResult
deriving DecidableEq

/-- Whether the loop was still running when the fuel ran out. -/
def StakeLoopResult.isRunning : StakeLoopResult → Bool
  | .running _ _ => true
  | _ => false

/-- The `for (;;)` outer loop of `doStake` (stdstaker.js lines 368-387).
`clock i` is the value of the `i`-th call to `util.now()`; the index is
threaded so that the short-circuit of `nTime !== 0 && nTime + 16 ===
util.now()` consumes a clock reading only when `nTime ≠ 0`. `util.now() &
~15` is truncation to the 16-second grid, `clock i / 16 * 16`. The `job`
argument is carried because `doStake(job)` receives it, but — exactly as in
the source — the loop never reads it; in particular `job.destroyed` is
never consulted. -/
def doStakeLoop (clock : Nat → Nat) (minConf : Nat) (toCompactFn : Nat → Nat)
    (getCoinsDb : List Nat → Option Coin) (prev : TipSnapshot) (prevOut : Option Output)
    (job : STDJob) (coins : List WalletCoin) :
    Nat → Nat → Nat → StakeLoopResult
  | 0, t, nTime => .running t nTime
  | fuel + 1, t, nTime =>
    if nTime ≠ 0 ∧ nTime + 16 = clock t then
      doStakeLoop clock minConf toCompactFn getCoinsDb prev prevOut job coins fuel (t + 1) nTime
    else
      let readT := if nTime ≠ 0 then t + 1 else t
      let nT := clock readT / 16 * 16
      match scanCoins minConf toCompactFn getCoinsDb prev prevOut nT coins with
      | .error e => .jsError e
      | .ok (some c) => .found nT c
      | .ok none =>
        doStakeLoop clock minConf toCompactFn getCoinsDb prev prevOut job coins fuel (readT + 1) nT

/-- `STDStaker.prototype.doStake` up to the end of its search loop
(stdstaker.js lines 360-387): `prev := chain.tip`, `prevOut` left
`undefined`, `nTime := 0`, then the outer loop. `doStakeAsync` (lines
313-352) has a body identical to `doStake` and is covered by the same
definition. -/
def doStake (clock : Nat → Nat) (minConf : Nat) (toCompactFn : Nat → Nat)
    (getCoinsDb : List Nat → Option Coin) (prev : TipSnapshot)
    (job : STDJob) (coins : List WalletCoin) (fuel : Nat) : StakeLoopResult :=
  doStakeLoop clock minConf toCompactFn getCoinsDb prev doStakePrevOut job coins fuel 0 0

/-! ## Concrete fixtures for counterexamples and witnesses -/

/-- A template fixture whose block constructors return an empty block. -/
def attemptFx : Attempt := ⟨[], 0, fun _ _ _ _ => ⟨[]⟩, fun _ _ => ⟨[]⟩⟩

/-- A destroyed, uncommitted job. -/
def jobDestroyedFx : STDJob := ⟨attemptFx, true, false, 0, 0, 0⟩

/-- A fresh job (neither destroyed nor committed). -/
def jobFreshFx : STDJob := ⟨attemptFx, false, false, 0, 0, 0⟩

/-- A committed job. -/
def jobCommittedFx : STDJob := ⟨attemptFx, false, true, 0, 0, 0⟩

/-- A job whose extra-nonce counters are `n1 = 0`, `n2 = 1`. -/
def jobNonceFx : STDJob := ⟨attemptFx, false, false, 0, 0, 1⟩

/-- A tip event whose `prevBlock` matches `attemptFx.prevBlock`. -/
def tipFx : ChainTipEvent := ⟨[]⟩

/-- A 32-byte stake modifier fixture (`0xAA` bytes). -/
def smFx : List Nat := List.replicate 32 170

/-- A 32-byte zero hash fixture. -/
def zeroHashFx : List Nat := List.replicate 32 0

/-- A coins entry at height 91 with a single output of value 1. -/
def coinFx : Coin := ⟨91, 0, [⟨1⟩]⟩

/-- An outpoint fixture at index 0. -/
def outpointFx : Outpoint := ⟨zeroHashFx, 0⟩

/-- A compact target whose expansion exceeds `2 ^ 256`: exponent `0x22`,
mantissa `0xffff`, so `fromCompact` yields `0xffff * 2 ^ 248`. -/
def hugeBitsFx : Nat := 0x2200ffff

/-- A header fixture with in-range fields. -/
def headerFx : Header := ⟨2, List.replicate 32 7, List.replicate 32 9, 1700000000, 0x1d00ffff, 12345⟩

/-- A wallet-coin fixture. -/
def walletCoinFx : WalletCoin := ⟨zeroHashFx, 0, 5⟩

/-- A second coins entry identical to `coinFx` except the output value is
doubled. -/
def coin2Fx : Coin := ⟨91, 0, [⟨2⟩]⟩

/-- A coins entry too young for a 10-confirmation gate under a height-100 tip. -/
def coinYoungFx : Coin := ⟨95, 0, [⟨1⟩]⟩

/-! # Theorems -/

/-! ## Validation of the SHA-256 model -/

/-- FIPS 180-4 test vector: SHA-256 of the ASCII bytes of `abc`. -/
theorem sha256_abc :
    sha256 [97, 98, 99] =
      [0xba, 0x78, 0x16, 0xbf, 0x8f, 0x01, 0xcf, 0xea, 0x41, 0x41, 0x40, 0xde,
       0x5d, 0xae, 0x22, 0x23, 0xb0, 0x03, 0x61, 0xa3, 0x96, 0x17, 0x7a, 0x9c,
       0xb4, 0x10, 0xff, 0x61, 0xf2, 0x00, 0x15, 0xad] := by decide

set_option maxRecDepth 4096 in
/-- The well-known double-SHA-256 of the empty message. -/
theorem hash256_empty :
    hash256 [] =
      [0x5d, 0xf6, 0xe0, 0xe2, 0x76, 0x13, 0x59, 0xd3, 0x0a, 0x82, 0x75, 0x05,
       0x8e, 0x29, 0x9f, 0xcc, 0x03, 0x81, 0x53, 0x45, 0x45, 0xf5, 0x5c, 0xf4,
       0x3e, 0x41, 0x98, 0x3f, 0x5d, 0x4c, 0x94, 0x56] := by decide

/-! ## Kernel predicate: characterization, C1, C3, C5 -/

/-- A successful kernel evaluation, characterized: the output exists, the
confirmation gate passes, the value is nonzero, and the hash quotient is at
most the expanded target. -/
theorem checkStakeKernelHash_eq_true_iff (minConf : Nat) (prev : TipSnapshot)
    (blkbits : Nat) (c : Coin) (po : Outpoint) (timeTx : Nat) :
    checkStakeKernelHash minConf prev blkbits (some c) po timeTx = some true ↔
      ∃ out, c.outputs[po.index]? = some out ∧
        ¬((prev.height : Int) + 1 - c.height < (minConf : Int)) ∧
        out.value ≠ 0 ∧
        ((leNat (hash256 (kernelData prev c po timeTx)) / out.value : Nat) : Int) ≤
          fromCompact blkbits := by
  unfold checkStakeKernelHash
  by_cases hgate : (prev.height : Int) + 1 - c.height < (minConf : Int)
  · simp [hgate]
  · cases hout : c.outputs[po.index]? with
    | none => simp [hgate, hout]
    | some out =>
      by_cases hval : out.value = 0
      · simp [hgate, hout, hval]
      · simp [hgate, hout, hval, decide_eq_true_iff]

/-- Claim C1: for every tip snapshot, compact target, existing coin passing
the confirmation gate with a positive value at the referenced output, and
every timestamp, `checkStakeKernelHash` returns true exactly when the
double-SHA-256 of `stakeModifier ‖ u32LE(coin.nTime) ‖ previousout.hash ‖
u32LE(previousout.index) ‖ u32LE(timeTx)`, read as a little-endian integer
and divided (with truncation) by the output value, is at most the
big-integer expansion of the compact target. -/
theorem kernel_formula (minConf : Nat) (prev : TipSnapshot) (blkbits : Nat)
    (c : Coin) (po : Outpoint) (timeTx : Nat) (out : Output)
    (hout : c.outputs[po.index]? = some out)
    (hval : 0 < out.value)
    (hgate : (minConf : Int) ≤ (prev.height : Int) + 1 - c.height) :
    (checkStakeKernelHash minConf prev blkbits (some c) po timeTx = some true ↔
      ((leNat (hash256 (prev.stakeModifier ++ (u32LE c.nTime ++ (po.hash ++
          (u32LE po.index ++ u32LE timeTx))))) / out.value : Nat) : Int) ≤
        fromCompact blkbits) := by
  rw [checkStakeKernelHash_eq_true_iff]
  constructor
  · rintro ⟨o, ho, -, -, hle⟩
    rw [hout] at ho
    injection ho with ho
    subst ho
    exact hle
  · intro hle
    exact ⟨out, hout, not_lt.mpr hgate, Nat.pos_iff_ne_zero.mp hval, hle⟩

set_option maxRecDepth 65536 in
/-- Witness for C1 at a concrete instance: tip height 100, stake modifier of
`0xAA` bytes, coin at height 91 with one output of value 1, huge target. -/
theorem kernel_formula_witness :
    checkStakeKernelHash 1 ⟨100, smFx⟩ hugeBitsFx (some coinFx) outpointFx 0 = some true ↔
      ((leNat (hash256 (smFx ++ (u32LE 0 ++ (zeroHashFx ++ (u32LE 0 ++ u32LE 0))))) / 1 : Nat) : Int) ≤
        fromCompact hugeBitsFx :=
  kernel_formula 1 ⟨100, smFx⟩ hugeBitsFx coinFx outpointFx 0 ⟨1⟩ rfl (by decide) (by decide)

set_option maxRecDepth 65536 in
/-- Claim C3, counterexample: at `STAKE_MIN_CONFIRMATIONS = 10`, a tip of
height 100 and a coin of height 91 satisfy `tip.height - coin.height < 10`
(9 < 10), yet the kernel — whose gate is `(tip.height + 1) - coin.height <
10`, i.e. 10 < 10 — proceeds and returns `some true` under a target larger
than any 256-bit hash, not `some false`. -/
theorem confirmation_gate_counterexample :
    ((100 : Int) - (91 : Int) < (10 : Int)) ∧
      checkStakeKernelHash 10 ⟨100, smFx⟩ hugeBitsFx (some coinFx) outpointFx 0 = some true := by
  exact ⟨by decide, by decide⟩

/-- Claim C3, amended: for every input with `(tip.height + 1) - coin.height <
STAKE_MIN_CONFIRMATIONS` — the gate the source actually computes, with
`blkheight = prev.height + 1` — the kernel returns false regardless of all
other inputs. -/
theorem confirmation_gate (minConf : Nat) (prev : TipSnapshot) (blkbits : Nat)
    (c : Coin) (po : Outpoint) (timeTx : Nat)
    (h : (prev.height : Int) + 1 - c.height < (minConf : Int)) :
    checkStakeKernelHash minConf prev blkbits (some c) po timeTx = some false := by
  unfold checkStakeKernelHash
  simp [h]

/-- Witness for the amended C3: a coin of height 95 under a tip of height
100 with a 10-confirmation requirement is rejected. -/
theorem confirmation_gate_witness :
    checkStakeKernelHash 10 ⟨100, smFx⟩ hugeBitsFx (some coinYoungFx) outpointFx 0 = some false :=
  confirmation_gate 10 ⟨100, smFx⟩ hugeBitsFx coinYoungFx outpointFx 0 (by decide)

/-- Claim C5: kernel proportionality. If two evaluations differ only in the
coin value at the referenced output, the second being `k ≥ 1` times the
first, then a successful kernel for the first coin implies a successful
kernel for the second: the hash input does not involve the value, and
dividing by a larger value can only shrink the quotient. -/
theorem kernel_value_monotone (minConf : Nat) (prev : TipSnapshot) (blkbits : Nat)
    (c1 c2 : Coin) (po : Outpoint) (timeTx : Nat) (k : Nat) (out1 out2 : Output)
    (hh : c1.height = c2.height) (hn : c1.nTime = c2.nTime)
    (ho1 : c1.outputs[po.index]? = some out1)
    (ho2 : c2.outputs[po.index]? = some out2)
    (hk : 1 ≤ k) (hv : out2.value = k * out1.value)
    (h1 : checkStakeKernelHash minConf prev blkbits (some c1) po timeTx = some true) :
    checkStakeKernelHash minConf prev blkbits (some c2) po timeTx = some true := by
  rw [checkStakeKernelHash_eq_true_iff] at h1 ⊢
  obtain ⟨o, ho, hgate, hval, hle⟩ := h1
  rw [ho1] at ho
  injection ho with ho
  subst ho
  refine ⟨out2, ho2, by rwa [← hh], ?_, ?_⟩
  · rw [hv]
    exact Nat.mul_ne_zero (by omega) hval
  · have hdata : kernelData prev c2 po timeTx = kernelData prev c1 po timeTx := by
      simp [kernelData, hn]
    rw [hdata, hv]
    have hdiv : leNat (hash256 (kernelData prev c1 po timeTx)) / (k * out1.value) ≤
        leNat (hash256 (kernelData prev c1 po timeTx)) / out1.value :=
      Nat.div_le_div_left (Nat.le_mul_of_pos_left _ (by omega)) (Nat.pos_of_ne_zero hval)
    exact le_trans (by exact_mod_cast hdiv) hle

set_option maxRecDepth 65536 in
/-- Witness for C5: the value-1 coin succeeds under the huge target, and so
does the value-2 coin (`k = 2`), all other inputs equal. -/
theorem kernel_value_monotone_witness :
    checkStakeKernelHash 1 ⟨100, smFx⟩ hugeBitsFx (some coin2Fx) outpointFx 0 = some true :=
  kernel_value_monotone 1 ⟨100, smFx⟩ hugeBitsFx coinFx coin2Fx outpointFx 0 2 ⟨1⟩ ⟨2⟩
    rfl rfl rfl rfl (by decide) (by decide) (by decide)

/-! ## Header round trip: C8 -/

/-- `readU32` undoes `u32LE` for in-range values, leaving the rest. -/
theorem readU32_u32LE (v : Nat) (rest : List Nat) (hv : v < 4294967296) :
    readU32 (u32LE v ++ rest) = some (v, rest) := by
  simp only [u32LE, List.cons_append, List.nil_append, readU32, Option.some.injEq,
    Prod.mk.injEq, and_true]
  omega

/-- `readU32` undoes `u32LE` at the end of the buffer. -/
theorem readU32_u32LE_nil (v : Nat) (hv : v < 4294967296) :
    readU32 (u32LE v) = some (v, []) := by
  have h := readU32_u32LE v [] hv
  rwa [List.append_nil] at h

/-- `readHash32` takes back a 32-byte prefix. -/
theorem readHash32_append (hs rest : List Nat) (hlen : hs.length = 32) :
    readHash32 (hs ++ rest) = some (hs, rest) := by
  have h32 : 32 ≤ (hs ++ rest).length := by
    simp [List.length_append, hlen]
  rw [readHash32, if_pos h32, List.take_left' hlen, List.drop_left' hlen]

/-- Claim C8: for every header whose integer fields are 32-bit and whose
hashes are 32 bytes, the serialization is 80 bytes and parsing it returns
the header unchanged. -/
theorem header_roundtrip (hd : Header)
    (hv : hd.version < 4294967296) (hts : hd.ts < 4294967296)
    (hb : hd.bits < 4294967296) (hn : hd.nonce < 4294967296)
    (hp : hd.prevBlock.length = 32) (hm : hd.merkleRoot.length = 32) :
    (serializeHead hd).length = 80 ∧ parseHead (serializeHead hd) = some hd := by
  constructor
  · simp [serializeHead, u32LE, hp, hm]
  · rw [serializeHead, parseHead, readU32_u32LE _ _ hv]
    simp only
    rw [readHash32_append _ _ hp]
    simp only
    rw [readHash32_append _ _ hm]
    simp only
    rw [readU32_u32LE _ _ hts]
    simp only
    rw [readU32_u32LE _ _ hb]
    simp only
    rw [readU32_u32LE_nil _ hn]

/-- Witness for C8: the concrete header fixture round-trips. -/
theorem header_roundtrip_witness :
    (serializeHead headerFx).length = 80 ∧ parseHead (serializeHead headerFx) = some headerFx :=
  header_roundtrip headerFx (by decide) (by decide) (by decide) (by decide)
    (by decide) (by decide)

/-! ## Job lifecycle: C4, C7, C10 -/

/-- Claim C4, counterexample: a job whose `destroyed` flag is set but which
has not committed yet does produce a block on `commit` — the source checks
only the `committed` flag — contradicting that a destroyed job returns no
block. -/
theorem commit_destroyed_counterexample :
    jobDestroyedFx.destroyed = true ∧ jobDestroyedFx.committed = false ∧
      jobDestroyedFx.commit 0 = .ok ({ jobDestroyedFx with committed := true },
        attemptFx.commitProof 0 0 0 0) :=
  ⟨rfl, rfl, rfl⟩

/-- Claim C4, amended: committing twice (via `commit` or `commitCnTxTime`)
raises `Job already committed.`; but a destroyed, uncommitted job still
returns a block from `commit` — only the mining loop, not `commit` itself,
observes destruction. -/
theorem commit_single_shot (job : STDJob) (nonce nTime : Nat) (c : WalletCoin) :
    (job.committed = true →
      job.commit nonce = .error (.assertError "Job already committed.") ∧
      job.commitCnTxTime nTime c = .error (.assertError "Job already committed.")) ∧
    (job.committed = false → job.destroyed = true →
      job.commit nonce = .ok ({ job with committed := true },
        job.attempt.commitProof job.nonce1 job.nonce2 job.attempt.ts nonce)) := by
  constructor
  · intro h
    constructor <;> simp [STDJob.commit, STDJob.commitCnTxTime, h]
  · intro h _
    simp [STDJob.commit, h]

/-- Witness for the amended C4: a committed job fixture raises on both
commit paths; the destroyed-but-uncommitted fixture still yields a block. -/
theorem commit_single_shot_witness :
    (jobCommittedFx.commit 0 = .error (.assertError "Job already committed.") ∧
     jobCommittedFx.commitCnTxTime 0 walletCoinFx = .error (.assertError "Job already committed.")) ∧
    jobDestroyedFx.commit 0 = .ok ({ jobDestroyedFx with committed := true },
      jobDestroyedFx.attempt.commitProof jobDestroyedFx.nonce1 jobDestroyedFx.nonce2
        jobDestroyedFx.attempt.ts 0) :=
  ⟨(commit_single_shot jobCommittedFx 0 0 walletCoinFx).1 rfl,
   (commit_single_shot jobDestroyedFx 0 0 walletCoinFx).2 rfl rfl⟩

/-- Claim C7, counterexample: with extra-nonce counters `n1 = 0`, `n2 = 1`
and header nonce 0, `getHashes` returns `0xffffffff = 4294967295`, not
`(0 * 2 ^ 32 + 1) * 2 ^ 32 + 0 = 4294967296`. -/
theorem getHashes_counterexample :
    jobNonceFx.getHashes 0 ≠ (jobNonceFx.nonce1 * 2 ^ 32 + jobNonceFx.nonce2) * 2 ^ 32 + 0 := by
  decide

/-- Claim C7, amended: `getHashes(nonce)` returns
`(n1 * 2 ^ 32 + n2) * (2 ^ 32 - 1) + nonce` — the source multiplies the
extra-nonce count by `0xffffffff`, not by `0x100000000`. -/
theorem getHashes_formula (job : STDJob) (nonce : Nat) :
    job.getHashes nonce = (job.nonce1 * 2 ^ 32 + job.nonce2) * (2 ^ 32 - 1) + nonce := rfl

/-- Claim C10: the tip handler destroys a matching job without nulling the
reference or checking `destroyed`; hence a first matching tip event leaves a
destroyed job in place, and a second destroys again, raising
`Job already destroyed.` inside the handler. -/
theorem tip_handler_double_destroy (job : STDJob) (tip : ChainTipEvent)
    (hmatch : job.attempt.prevBlock = tip.prevBlock) :
    (job.destroyed = false →
      handleTip (some job) tip = .ok (some { job with destroyed := true })) ∧
    (job.destroyed = true →
      handleTip (some job) tip = .error (.assertError "Job already destroyed.")) := by
  constructor <;> intro h <;> simp [handleTip, STDJob.destroy, hmatch, h]

/-- Witness for C10: the fresh fixture is destroyed and kept referenced by a
matching tip event; the destroyed fixture makes the handler raise. -/
theorem tip_handler_double_destroy_witness :
    handleTip (some jobFreshFx) tipFx = .ok (some { jobFreshFx with destroyed := true }) ∧
    handleTip (some jobDestroyedFx) tipFx = .error (.assertError "Job already destroyed.") :=
  ⟨(tip_handler_double_destroy jobFreshFx tipFx rfl).1 rfl,
   (tip_handler_double_destroy jobDestroyedFx tipFx rfl).2 rfl⟩

/-! ## PoW nonce search: C9 -/

/-- The interval constant evaluates to 2863311. -/
theorem INTERVAL_eq : INTERVAL = 2863311 := rfl

/-- The fuel bound of `findNonceLoop` is immaterial once it covers the
remaining iterations: any two fuels that both push `max` past `0xffffffff`
compute the same result, so `findNonce` with fuel 1501 is the unbounded
`while` loop of the source. -/
theorem findNonceLoop_fuel_irrelevant (mineFn : Nat → Nat → Int) :
    ∀ (f g mn mx : Nat), 0xffffffff < mx + f * INTERVAL → 0xffffffff < mx + g * INTERVAL →
      findNonceLoop mineFn f mn mx = findNonceLoop mineFn g mn mx := by
  intro f
  induction f with
  | zero =>
    intro g mn mx hf hg
    cases g with
    | zero => rfl
    | succ m =>
      rw [INTERVAL_eq] at hf
      have hguard : ¬(mx ≤ 0xffffffff) := by omega
      simp [findNonceLoop, hguard]
  | succ n ih =>
    intro g mn mx hf hg
    cases g with
    | zero =>
      rw [INTERVAL_eq] at hg
      have hguard : ¬(mx ≤ 0xffffffff) := by omega
      simp [findNonceLoop, hguard]
    | succ m =>
      rw [findNonceLoop, findNonceLoop]
      by_cases hguard : mx ≤ 0xffffffff
      · simp only [if_pos hguard]
        by_cases hm : mineFn mn mx = -1
        · simp only [hm, if_pos rfl]
          exact ih m (mn + INTERVAL) (mx + INTERVAL)
            (by rw [INTERVAL_eq] at hf ⊢; omega)
            (by rw [INTERVAL_eq] at hg ⊢; omega)
        · simp [hm]
      · simp [hguard]

/-- The loop result depends only on the values of `mine` at slices whose
upper bound is a multiple of `INTERVAL` not exceeding `1500 * INTERVAL =
4294966500`: slices beyond that bound are never queried. -/
theorem findNonceLoop_agree (f g : Nat → Nat → Int)
    (hagree : ∀ a b, b ≤ 4294966500 → f a b = g a b) :
    ∀ (fuel mn mx : Nat), mx % INTERVAL = 0 →
      findNonceLoop f fuel mn mx = findNonceLoop g fuel mn mx := by
  intro fuel
  induction fuel with
  | zero => intro mn mx _; rfl
  | succ n ih =>
    intro mn mx hmx
    rw [INTERVAL_eq] at hmx
    rw [findNonceLoop, findNonceLoop]
    by_cases hguard : mx ≤ 0xffffffff
    · have hq := hagree mn mx (by omega)
      simp only [if_pos hguard, hq]
      by_cases hm : g mn mx = -1
      · simp only [hm, if_pos rfl]
        exact ih (mn + INTERVAL) (mx + INTERVAL) (by rw [INTERVAL_eq]; omega)
      · simp [hm]
    · simp [hguard]

/-- A `mine` primitive that always misses makes the loop return `-1`. -/
theorem findNonceLoop_const_miss :
    ∀ (fuel mn mx : Nat), findNonceLoop (fun _ _ => -1) fuel mn mx = -1 := by
  intro fuel
  induction fuel with
  | zero => intro mn mx; rfl
  | succ n ih =>
    intro mn mx
    rw [findNonceLoop]
    by_cases hguard : mx ≤ 0xffffffff
    · simp [hguard, ih]
    · simp [hguard]

/-- A slice entirely below a bound finds nothing when the predicate has no
witness below that bound. -/
theorem mineSpec_low_miss (p : Nat → Bool) (hp : ∀ n, n < 4294966500 → p n = false)
    (mn mx : Nat) (hmx : mx ≤ 4294966500) :
    mineSpec p mn mx = -1 := by
  unfold mineSpec
  have hnone : (List.range' mn (mx - mn)).find? p = none := by
    rw [List.find?_eq_none]
    intro x hx
    have hmem := List.mem_range'_1.mp hx
    have hfalse : p x = false := hp x (by omega)
    simp [hfalse]
  rw [hnone]

/-- Claim C9: `INTERVAL = 2863311`; the result of `findNonce` depends only
on the behavior of the `mine` primitive on slices with upper bound at most
`1500 * INTERVAL = 4294966500` — nonces in `[4294966500, 0xffffffff]` are
never passed to `mine` — and for a specification-conformant `mine` whose
target predicate has no witness below 4294966500, `findNonce` returns `-1`
even when a nonce in the top range would satisfy the target. -/
theorem findNonce_high_nonces_unreachable :
    INTERVAL = 2863311 ∧
    (∀ f g : Nat → Nat → Int,
      (∀ mn mx, mx ≤ 4294966500 → f mn mx = g mn mx) → findNonce f = findNonce g) ∧
    (∀ p : Nat → Bool, (∀ n, n < 4294966500 → p n = false) →
      findNonce (mineSpec p) = -1) := by
  refine ⟨rfl, ?_, ?_⟩
  · intro f g hagree
    exact findNonceLoop_agree f g hagree 1501 0 INTERVAL (Nat.mod_self _)
  · intro p hp
    have hstep : findNonce (mineSpec p) = findNonce (fun _ _ => -1) :=
      findNonceLoop_agree (mineSpec p) (fun _ _ => -1)
        (fun a b hb => mineSpec_low_miss p hp a b hb) 1501 0 INTERVAL (Nat.mod_self _)
    rw [hstep]
    exact findNonceLoop_const_miss 1501 0 INTERVAL

/-- Witness for C9: two `mine` primitives that agree below the bound give
the same search result, and a target satisfied only at nonce 4294966600
(which lies in `[4294966500, 0xffffffff]`) is never found. -/
theorem findNonce_high_nonces_unreachable_witness :
    findNonce (fun _ mx => if mx ≤ 4294966500 then -1 else 7) = findNonce (fun _ _ => -1) ∧
    findNonce (mineSpec (fun n => decide (n = 4294966600))) = -1 :=
  ⟨findNonce_high_nonces_unreachable.2.1 _ _ (by intro mn mx h; simp [h]),
   findNonce_high_nonces_unreachable.2.2 _ (by intro n hn; simp; omega)⟩

/-! ## The stake search: C2 and C6 -/

/-- Claim C2: the stake search never invokes the kernel with
`compact(coin.value)` — or with any target. For every environment and every
nonempty coin list, the very first coin iteration evaluates
`prevOut.value` with `prevOut` still `undefined` and throws a `TypeError`
before `checkStakeKernelHash` is ever called, for any amount of fuel. -/
theorem doStake_prevOut_typeError (clock : Nat → Nat) (minConf : Nat)
    (toCompactFn : Nat → Nat) (getCoinsDb : List Nat → Option Coin)
    (prev : TipSnapshot) (job : STDJob) (c : WalletCoin) (rest : List WalletCoin)
    (fuel : Nat) :
    doStake clock minConf toCompactFn getCoinsDb prev job (c :: rest) (fuel + 1) =
      .jsError .typeError := by
  simp [doStake, doStakeLoop, scanCoins, doStakePrevOut, jsGetValue]

/-- Claim C6: the stake-search loop never observes job destruction. The
source loop reads neither `job` nor `job.destroyed`; with a destroyed job
and no coins it keeps iterating time slots for any amount of fuel, never
returning, instead of stopping. -/
theorem doStakeLoop_ignores_destroyed (clock : Nat → Nat) (minConf : Nat)
    (toCompactFn : Nat → Nat) (getCoinsDb : List Nat → Option Coin)
    (prev : TipSnapshot) (prevOut : Option Output) (job : STDJob) :
    ∀ (fuel t nTime : Nat),
      (doStakeLoop clock minConf toCompactFn getCoinsDb prev prevOut
        { job with destroyed := true } [] fuel t nTime).isRunning = true := by
  intro fuel
  induction fuel with
  | zero => intro t nTime; rfl
  | succ n ih =>
    intro t nTime
    rw [doStakeLoop]
    by_cases hc : nTime ≠ 0 ∧ nTime + 16 = clock t
    · simp only [if_pos hc]
      exact ih (t + 1) nTime
    · simp only [if_neg hc, scanCoins]
      exact ih _ _
